import Mathlib

/-!
Shallow embedding of the `encurtador` URL-shortening service
(`internal/service/url_service.go`, `internal/repository/mysql_url_repository.go`,
`internal/model/url.go`).

Modelling conventions:
* Time is an abstract integer clock (`Int`, unit: seconds); `now` is passed
  explicitly where Go calls `time.Now()` / SQL `NOW()`.
* The MySQL table is a `List URL`; slug uniqueness is a hypothesis where needed.
* The Redis cache is an association list `List (String × CachedURL)` recording
  what the service wrote; what a `Get` actually returns is an explicit
  `Except Unit (Option CachedURL)` input (`.error ()` models a cache failure,
  Redis eviction makes the honest answer time-dependent).  `honestGet` is the
  reading that answers exactly from the recorded entries.
* `crypto/rand` is a byte stream `List Nat` threaded through the randomised
  operations, with fuel bounding the rejection-sampling loop.
* `crypto/sha256` (external library) is a parameter `sha256 : String → List Nat`
  producing the digest bytes; `hexEncode` is modelled concretely.
* `bcrypt` (external library) is a parameter: `bcryptHash : String → String`
  for hashing, `bcryptMatch : String → String → Bool` (hash, password) for
  `CompareHashAndPassword` succeeding.
* `URL.ID` / `URL.CreatedAt` are DB bookkeeping never read by the service
  layer and are omitted.
-/

namespace Encurtador

/-- Constants from `url_service.go`. -/
def autoSlugLength : Nat := 8

def manageTokenLength : Nat := 32

def maxCollisionTries : Nat := 10

def maxAutoSlugTries : Nat := 10

def slugMinLength : Nat := 5

def slugMaxLength : Nat := 50

def base62Chars : String := "0123456789ABCDEFGHIJKLMNOPQRSTUVWXYZabcdefghijklmnopqrstuvwxyz"

/-- A row of the `urls` table (`model.URL`); `ID`/`CreatedAt` omitted (never
read by the service layer). -/
structure URL where
  Slug : String
  TargetURL : String
  PasswordHash : Option String
  ManageTokenHash : String
  ExpiresAt : Int
  deriving DecidableEq, Repr

/-- The Redis payload (`model.CachedURL`). -/
structure CachedURL where
  TargetURL : String
  Protected : Bool
  PasswordHash : String
  deriving DecidableEq, Repr

/-- Projection `URL.ToCached` from `model/url.go`. -/
def URL.toCached (u : URL) : CachedURL :=
  { TargetURL := u.TargetURL
    Protected := u.PasswordHash.isSome
    PasswordHash := u.PasswordHash.getD "" }

/-- The TTL whitelist `model.ValidTTLs`; durations in seconds. -/
def validTTLs : List (String × Int) :=
  [("1h", 3600), ("24h", 24 * 3600), ("168h", 7 * 24 * 3600),
   ("720h", 30 * 24 * 3600), ("8760h", 365 * 24 * 3600)]

/-- Lookup in the TTL whitelist (the Go map indexing `model.ValidTTLs[req.TTL]`). -/
def ttlLookup (t : String) : Option Int :=
  (validTTLs.find? (fun p => p.1 = t)).map (·.2)

/-- Character class of the regexp `^[a-zA-Z0-9-]{5,50}$` (`slugPattern`). -/
def isSlugChar (c : Char) : Bool :=
  ('a' ≤ c && c ≤ 'z') || ('A' ≤ c && c ≤ 'Z') || ('0' ≤ c && c ≤ '9') || c = '-'

/-- `slugPattern.MatchString`: full-anchored match of `[a-zA-Z0-9-]{5,50}`. -/
def matchesSlugPattern (s : String) : Bool :=
  decide (slugMinLength ≤ s.length) && decide (s.length ≤ slugMaxLength)
    && s.data.all isSlugChar

/-- The sentinel errors of `url_service.go` (plus internal failures that Go
returns as wrapped generic errors). -/
inductive ServiceError where
  | ErrSlugTaken
  | ErrInvalidSlugFormat
  | ErrInvalidTTL
  | ErrInvalidPassword
  | ErrInvalidManageToken
  | ErrRandomFailed
  | ErrSlugGenExhausted
  | ErrStoreFailed
  deriving DecidableEq, Repr

/-! ## Repository (`mysql_url_repository.go`) -/

/-- `SlugExists`: `SELECT EXISTS(SELECT 1 FROM urls WHERE slug = ?)` — note it
does not filter on expiration. -/
def slugExists (store : List URL) (slug : String) : Bool :=
  store.any (fun u => u.Slug = slug)

/-- `FindBySlug`: `SELECT ... WHERE slug = ? AND expires_at > NOW()`, first row
or `nil`. -/
def findBySlug (store : List URL) (slug : String) (now : Int) : Option URL :=
  store.find? (fun u => u.Slug = slug && decide (now < u.ExpiresAt))

/-- `ExpireBySlug`: `UPDATE urls SET expires_at = NOW() WHERE slug = ? AND
manage_token_hash = ? AND expires_at > NOW()`; returns whether any row was
affected, together with the updated table. -/
def expireBySlug (store : List URL) (slug tokenHash : String) (now : Int) :
    Bool × List URL :=
  let hit := fun (u : URL) =>
    u.Slug = slug && u.ManageTokenHash = tokenHash && decide (now < u.ExpiresAt)
  ((store.filter hit).length > 0,
   store.map (fun u => if hit u then { u with ExpiresAt := now } else u))

/-- `Create` (repository): `INSERT INTO urls ...`; the unique key on `slug`
makes the insert fail when the slug is already present. -/
def repoCreate (store : List URL) (url : URL) : Except Unit (List URL) :=
  if slugExists store url.Slug then .error () else .ok (store ++ [url])

/-! ## Hex encoding and randomness -/

/-- One hex digit, as produced by `encoding/hex`. -/
def hexDigit (n : Nat) : Char := "0123456789abcdef".data.getD n '0'

/-- `hex.EncodeToString` over a digest given as its list of byte values. -/
def hexEncode (bs : List Nat) : String :=
  ⟨bs.foldr (fun b acc => hexDigit (b / 16) :: hexDigit (b % 16) :: acc) []⟩

/-- `256 - 256 % 62 = 248`, the rejection-sampling ceiling in `randomBase62`. -/
def unbiasedCeiling : Nat := 256 - 256 % 62

/-- Indexing `base62Chars[b % 62]`. -/
def base62Char (b : Nat) : Char := base62Chars.data.getD (b % 62) '0'

/-- The inner `for _, b := range buf` loop of `randomBase62`: keep unbiased
bytes until the result reaches the requested length or the buffer is spent. -/
def absorbBuf (len : Nat) : List Char → List Nat → List Char
  | acc, [] => acc
  | acc, b :: rest =>
    if b < unbiasedCeiling then
      let acc' := acc ++ [base62Char b]
      if acc'.length = len then acc' else absorbBuf len acc' rest
    else absorbBuf len acc rest

/-- The outer `for len(result) < length` loop of `randomBase62`; each round
reads `length` fresh bytes from the stream.  `none` models a `rand.Read`
failure (stream exhausted) or running out of fuel. -/
def randomBase62Go (length : Nat) : Nat → List Char → List Nat →
    Option (String × List Nat)
  | 0, acc, stream =>
    if length ≤ acc.length then some (⟨acc⟩, stream) else none
  | fuel + 1, acc, stream =>
    if length ≤ acc.length then some (⟨acc⟩, stream)
    else if stream.length < length then none
    else randomBase62Go length fuel (absorbBuf length acc (stream.take length))
      (stream.drop length)

/-- `randomBase62(length)`: unbiased random base62 string, returning the
unconsumed remainder of the byte stream. -/
def randomBase62 (length fuel : Nat) (stream : List Nat) :
    Option (String × List Nat) :=
  randomBase62Go length fuel [] stream

/-- `generateManageToken`: 32 random base62 chars, paired with the hex-encoded
SHA-256 of the plaintext. -/
def generateManageToken (sha256 : String → List Nat) (fuel : Nat)
    (stream : List Nat) : Option (String × String × List Nat) :=
  match randomBase62 manageTokenLength fuel stream with
  | none => none
  | some (plain, rest) => some (plain, hexEncode (sha256 plain), rest)

/-! ## Service state -/

/-- The durable table plus the entries the service has written to Redis. -/
structure ServiceState where
  store : List URL
  cache : List (String × CachedURL)
  deriving DecidableEq, Repr

/-- Redis `SET` (overwrite semantics). -/
def cacheSet (cache : List (String × CachedURL)) (slug : String)
    (v : CachedURL) : List (String × CachedURL) :=
  (slug, v) :: cache.filter (fun p => ¬ p.1 = slug)

/-- Redis `DEL`. -/
def cacheDelete (cache : List (String × CachedURL)) (slug : String) :
    List (String × CachedURL) :=
  cache.filter (fun p => ¬ p.1 = slug)

/-- What the recorded cache holds for a slug. -/
def cacheLookup (cache : List (String × CachedURL)) (slug : String) :
    Option CachedURL :=
  (cache.find? (fun p => p.1 = slug)).map (·.2)

/-- The cache `Get` outcome that answers exactly from the recorded entries
(no eviction, no failure). -/
def honestGet (st : ServiceState) (slug : String) :
    Except Unit (Option CachedURL) :=
  .ok (cacheLookup st.cache slug)

/-! ## Service layer (`url_service.go`) -/

/-- `lookupCached`: cache-aside read.  `gres` is what `cache.Get` returned
(`.error ()` is logged and treated as a miss); on a miss the durable store is
read, expiration is re-checked client-side, and the cache is repopulated
(`setOk` says whether that best-effort `Set` took effect). -/
def lookupCached (st : ServiceState) (gres : Except Unit (Option CachedURL))
    (setOk : Bool) (slug : String) (now : Int) :
    Option CachedURL × ServiceState :=
  let cached : Option CachedURL := match gres with
    | .error _ => none
    | .ok c => c
  match cached with
  | some c => (some c, st)
  | none =>
    match findBySlug st.store slug now with
    | none => (none, st)
    | some url =>
      let remaining := url.ExpiresAt - now
      if remaining ≤ 0 then (none, st)
      else
        let c := url.toCached
        (some c, if setOk then { st with cache := cacheSet st.cache slug c } else st)

/-- `Resolve(slug)` is exactly `lookupCached`. -/
def Resolve (st : ServiceState) (gres : Except Unit (Option CachedURL))
    (setOk : Bool) (slug : String) (now : Int) :
    Option CachedURL × ServiceState :=
  lookupCached st gres setOk slug now

/-- `VerifyPassword(slug, password)`: `none` for missing/expired, the target
URL when unprotected or the bcrypt comparison succeeds, `ErrInvalidPassword`
otherwise. -/
def VerifyPassword (bcryptMatch : String → String → Bool) (st : ServiceState)
    (gres : Except Unit (Option CachedURL)) (setOk : Bool)
    (slug password : String) (now : Int) :
    Except ServiceError (Option String × ServiceState) :=
  match lookupCached st gres setOk slug now with
  | (none, st') => .ok (none, st')
  | (some c, st') =>
    if !c.Protected then .ok (some c.TargetURL, st')
    else if bcryptMatch c.PasswordHash password then .ok (some c.TargetURL, st')
    else .error .ErrInvalidPassword

/-- `ExpireEarly(slug, manageToken)`: hash the token, conditionally expire,
authorization failure when no row was affected; best-effort cache invalidation
(`delOk`). -/
def ExpireEarly (sha256 : String → List Nat) (st : ServiceState)
    (delOk : Bool) (slug manageToken : String) (now : Int) :
    Except ServiceError ServiceState :=
  let hash := hexEncode (sha256 manageToken)
  match expireBySlug st.store slug hash now with
  | (updated, store') =>
    if !updated then .error .ErrInvalidManageToken
    else .ok { store := store'
               cache := if delOk then cacheDelete st.cache slug else st.cache }

/-- The `for i := 2; i <= maxCollisionTries; i++` loop of `suggestAlternative`,
with the remaining iteration count explicit. -/
def suggestAlternativeGo (store : List URL) (slug : String) :
    Nat → Nat → String
  | _, 0 => ""
  | i, fuel + 1 =>
    let candidate := slug ++ "-" ++ toString i
    if slugExists store candidate then suggestAlternativeGo store slug (i + 1) fuel
    else candidate

/-- `suggestAlternative`: first available `slug-N` for `N = 2, …, 10`, or the
empty string when every candidate is taken. -/
def suggestAlternative (store : List URL) (slug : String) : String :=
  suggestAlternativeGo store slug 2 (maxCollisionTries - 1)

/-- `generateUniqueSlug`: up to 10 attempts at an unused random 8-char slug. -/
def generateUniqueSlugGo (store : List URL) (fuel : Nat) :
    Nat → List Nat → Except ServiceError (String × List Nat)
  | 0, _ => .error .ErrSlugGenExhausted
  | tries + 1, stream =>
    match randomBase62 autoSlugLength fuel stream with
    | none => .error .ErrRandomFailed
    | some (slug, rest) =>
      if slugExists store slug then generateUniqueSlugGo store fuel tries rest
      else .ok (slug, rest)

/-- `generateUniqueSlug` entry point. -/
def generateUniqueSlug (store : List URL) (fuel : Nat) (stream : List Nat) :
    Except ServiceError (String × List Nat) :=
  generateUniqueSlugGo store fuel maxAutoSlugTries stream

/-- `resolveSlug`: generate when omitted; otherwise validate the format, take
the slug when free, fall back to `suggestAlternative`, and report
`ErrSlugTaken` when even that fails. -/
def resolveSlug (store : List URL) (fuel : Nat) (stream : List Nat)
    (requested : String) : Except ServiceError (String × List Nat) :=
  if requested = "" then generateUniqueSlug store fuel stream
  else if !matchesSlugPattern requested then .error .ErrInvalidSlugFormat
  else if !slugExists store requested then .ok (requested, stream)
  else
    let candidate := suggestAlternative store requested
    if candidate ≠ "" then .ok (candidate, stream)
    else .error .ErrSlugTaken

/-- `service.CreateRequest`. -/
structure CreateRequest where
  TargetURL : String
  Slug : String
  TTL : String
  Password : String
  deriving DecidableEq, Repr

/-- `service.CreateResult`. -/
structure CreateResult where
  Slug : String
  ShortURL : String
  ExpiresAt : Int
  Protected : Bool
  ManageToken : String
  deriving DecidableEq, Repr

/-- The optional bcrypt hash of `Create` (lines 77–85 of `url_service.go`):
hash only a non-empty password. -/
def passwordHashOf (bcryptHash : String → String) (password : String) :
    Option String :=
  if password ≠ "" then some (bcryptHash password) else none

/-- `Create`: validate the TTL, resolve the slug, hash the optional password,
generate the manage token, write the durable record, then best-effort cache
pre-warm (`setOk`; a failure is logged and non-fatal). -/
def Create (sha256 : String → List Nat) (bcryptHash : String → String)
    (baseURL : String) (st : ServiceState) (setOk : Bool) (fuel : Nat)
    (stream : List Nat) (now : Int) (req : CreateRequest) :
    Except ServiceError (CreateResult × ServiceState) :=
  match ttlLookup req.TTL with
  | none => .error .ErrInvalidTTL
  | some ttlDuration =>
    match resolveSlug st.store fuel stream req.Slug with
    | .error e => .error e
    | .ok (slug, stream') =>
      let passwordHash : Option String := passwordHashOf bcryptHash req.Password
      match generateManageToken sha256 fuel stream' with
      | none => .error .ErrRandomFailed
      | some (manageToken, manageTokenHash, _) =>
        let expiresAt := now + ttlDuration
        let url : URL :=
          { Slug := slug, TargetURL := req.TargetURL
            PasswordHash := passwordHash
            ManageTokenHash := manageTokenHash, ExpiresAt := expiresAt }
        match repoCreate st.store url with
        | .error _ => .error .ErrStoreFailed
        | .ok store' =>
          .ok ({ Slug := slug, ShortURL := baseURL ++ "/" ++ slug
                 ExpiresAt := expiresAt, Protected := passwordHash.isSome
                 ManageToken := manageToken },
               { store := store'
                 cache := if setOk then cacheSet st.cache slug url.toCached
                          else st.cache })

/-- `CheckSlug(slug)`: validate the format, report availability, and on
conflict return the suffix-probing suggestion (empty when exhausted). -/
def CheckSlug (store : List URL) (slug : String) :
    Except ServiceError (Bool × String) :=
  if !matchesSlugPattern slug then .error .ErrInvalidSlugFormat
  else if !slugExists store slug then .ok (true, "")
  else .ok (false, suggestAlternative store slug)

/-! ## General lemmas -/

theorem findBySlug_eq_none_of_expired (store : List URL) (slug : String)
    (now : Int) (hexp : ∀ u ∈ store, u.Slug = slug → u.ExpiresAt ≤ now) :
    findBySlug store slug now = none := by
  apply List.find?_eq_none.mpr
  intro u hu
  simp only [Bool.and_eq_true, decide_eq_true_eq, not_and]
  intro hslug hlt
  exact absurd (hexp u hu hslug) (not_le.mpr hlt)

/-- The durable record a successful `Create` writes. -/
def createdURL (bcryptHash : String → String) (req : CreateRequest)
    (slug tokHash : String) (expiresAt : Int) : URL :=
  { Slug := slug, TargetURL := req.TargetURL
    PasswordHash := passwordHashOf bcryptHash req.Password
    ManageTokenHash := tokHash, ExpiresAt := expiresAt }

/-- The result a successful `Create` returns. -/
def createdResult (bcryptHash : String → String) (baseURL : String)
    (req : CreateRequest) (slug tok : String) (expiresAt : Int) :
    CreateResult :=
  { Slug := slug, ShortURL := baseURL ++ "/" ++ slug, ExpiresAt := expiresAt
    Protected := (passwordHashOf bcryptHash req.Password).isSome
    ManageToken := tok }

theorem Create_eq_ok (sha256 : String → List Nat)
    (bcryptHash : String → String) (baseURL : String) (st : ServiceState)
    (setOk : Bool) (fuel : Nat) (stream stream' rest : List Nat) (now : Int)
    (req : CreateRequest) (d : Int) (slug tok tokHash : String)
    (httl : ttlLookup req.TTL = some d)
    (hres : resolveSlug st.store fuel stream req.Slug = .ok (slug, stream'))
    (htok : generateManageToken sha256 fuel stream' = some (tok, tokHash, rest))
    (hfree : slugExists st.store slug = false) :
    Create sha256 bcryptHash baseURL st setOk fuel stream now req =
      .ok (createdResult bcryptHash baseURL req slug tok (now + d),
           { store := st.store ++ [createdURL bcryptHash req slug tokHash (now + d)]
             cache := if setOk then
                 cacheSet st.cache slug
                   (createdURL bcryptHash req slug tokHash (now + d)).toCached
               else st.cache }) := by
  simp [Create, httl, hres, htok, repoCreate, hfree, createdResult, createdURL]

theorem Create_ok_inv (sha256 : String → List Nat)
    (bcryptHash : String → String) (baseURL : String) (st : ServiceState)
    (setOk : Bool) (fuel : Nat) (stream : List Nat) (now : Int)
    (req : CreateRequest) (res : CreateResult) (st' : ServiceState)
    (h : Create sha256 bcryptHash baseURL st setOk fuel stream now req
      = .ok (res, st')) :
    ∃ d slug stream' tok tokHash rest,
      ttlLookup req.TTL = some d ∧
      resolveSlug st.store fuel stream req.Slug = .ok (slug, stream') ∧
      generateManageToken sha256 fuel stream' = some (tok, tokHash, rest) ∧
      slugExists st.store slug = false ∧
      res = createdResult bcryptHash baseURL req slug tok (now + d) ∧
      st' = { store := st.store ++ [createdURL bcryptHash req slug tokHash (now + d)]
              cache := if setOk then
                  cacheSet st.cache slug
                    (createdURL bcryptHash req slug tokHash (now + d)).toCached
                else st.cache } := by
  cases httl : ttlLookup req.TTL with
  | none => simp [Create, httl] at h
  | some d =>
    cases hres : resolveSlug st.store fuel stream req.Slug with
    | error e => simp [Create, httl, hres] at h
    | ok p =>
      obtain ⟨slug, stream'⟩ := p
      cases htok : generateManageToken sha256 fuel stream' with
      | none => simp [Create, httl, hres, htok] at h
      | some q =>
        obtain ⟨tok, tokHash, rest⟩ := q
        cases hfree : slugExists st.store slug with
        | true => simp [Create, httl, hres, htok, repoCreate, hfree] at h
        | false =>
          refine ⟨d, slug, stream', tok, tokHash, rest, rfl, rfl, htok, hfree, ?_⟩
          simp only [Create, httl, hres, htok, repoCreate, hfree] at h
          simp only [Bool.false_eq_true, if_false, Except.ok.injEq, Prod.mk.injEq] at h
          obtain ⟨h1, h2⟩ := h
          exact ⟨h1.symm, h2.symm⟩

theorem lookupCached_err_eq_miss (st : ServiceState) (setOk : Bool)
    (slug : String) (now : Int) :
    lookupCached st (.error ()) setOk slug now
      = lookupCached st (.ok none) setOk slug now := rfl

theorem lookupCached_fst_setOk (st : ServiceState)
    (gres : Except Unit (Option CachedURL)) (b b' : Bool) (slug : String)
    (now : Int) :
    (lookupCached st gres b slug now).1 = (lookupCached st gres b' slug now).1 := by
  unfold lookupCached
  rcases gres with u | c
  · cases hf : findBySlug st.store slug now with
    | none => simp [hf]
    | some url => simp only [hf]; split <;> rfl
  · cases c with
    | some v => rfl
    | none =>
      cases hf : findBySlug st.store slug now with
      | none => simp [hf]
      | some url => simp only [hf]; split <;> rfl

theorem Create_setOk_error_iff (sha256 : String → List Nat)
    (bcryptHash : String → String) (baseURL : String) (st : ServiceState)
    (b b' : Bool) (fuel : Nat) (stream : List Nat) (now : Int)
    (req : CreateRequest) (e : ServiceError) :
    Create sha256 bcryptHash baseURL st b fuel stream now req = .error e ↔
    Create sha256 bcryptHash baseURL st b' fuel stream now req = .error e := by
  cases httl : ttlLookup req.TTL with
  | none => simp [Create, httl]
  | some d =>
    cases hres : resolveSlug st.store fuel stream req.Slug with
    | error e' => simp [Create, httl, hres]
    | ok p =>
      obtain ⟨slug, stream'⟩ := p
      cases htok : generateManageToken sha256 fuel stream' with
      | none => simp [Create, httl, hres, htok]
      | some q =>
        obtain ⟨tok, tokHash, rest⟩ := q
        cases hfree : slugExists st.store slug with
        | true => simp [Create, httl, hres, htok, repoCreate, hfree]
        | false => simp [Create, httl, hres, htok, repoCreate, hfree]

theorem lookupCached_found (st : ServiceState)
    (gres : Except Unit (Option CachedURL)) (setOk : Bool) (slug : String)
    (now : Int) (r : URL)
    (hfind : findBySlug st.store slug now = some r)
    (hg : gres = .ok none ∨ gres = .ok (some r.toCached)) :
    (lookupCached st gres setOk slug now).1 = some r.toCached := by
  rcases hg with rfl | rfl
  · have hmem := List.find?_some hfind
    simp only [Bool.and_eq_true, decide_eq_true_eq] at hmem
    have hlt : now < r.ExpiresAt := hmem.2
    unfold lookupCached
    simp only [hfind]
    rw [if_neg (by omega)]
  · rfl

theorem ExpireEarly_ok (sha256 : String → List Nat) (st : ServiceState)
    (delOk : Bool) (slug token : String) (now : Int) (u : URL)
    (hmem : u ∈ st.store)
    (hhit : (u.Slug = slug && u.ManageTokenHash = hexEncode (sha256 token)
      && decide (now < u.ExpiresAt)) = true) :
    ExpireEarly sha256 st delOk slug token now =
      .ok { store := st.store.map (fun v =>
              if v.Slug = slug && v.ManageTokenHash = hexEncode (sha256 token)
                  && decide (now < v.ExpiresAt)
              then { v with ExpiresAt := now } else v)
            cache := if delOk then cacheDelete st.cache slug else st.cache } := by
  have hpos : 0 < (st.store.filter (fun v =>
      v.Slug = slug && v.ManageTokenHash = hexEncode (sha256 token)
        && decide (now < v.ExpiresAt))).length :=
    List.length_pos.mpr (List.ne_nil_of_mem (List.mem_filter.mpr ⟨hmem, hhit⟩))
  simp only [ExpireEarly, expireBySlug]
  rw [if_neg (by simp [hpos])]

theorem ExpireEarly_fail (sha256 : String → List Nat) (st : ServiceState)
    (delOk : Bool) (slug token : String) (now : Int)
    (hnone : ∀ u ∈ st.store,
      (u.Slug = slug && u.ManageTokenHash = hexEncode (sha256 token)
        && decide (now < u.ExpiresAt)) = false) :
    ExpireEarly sha256 st delOk slug token now
      = .error .ErrInvalidManageToken := by
  have hnil : st.store.filter (fun v =>
      v.Slug = slug && v.ManageTokenHash = hexEncode (sha256 token)
        && decide (now < v.ExpiresAt)) = [] :=
    List.filter_eq_nil_iff.mpr (fun u hu => by simp [hnone u hu])
  simp only [ExpireEarly, expireBySlug]
  rw [if_pos (by simp [hnil])]

theorem suggestAlternativeGo_all_taken (store : List URL) (slug : String) :
    ∀ fuel i, (∀ j, i ≤ j → j < i + fuel →
      slugExists store (slug ++ "-" ++ toString j) = true) →
    suggestAlternativeGo store slug i fuel = "" := by
  intro fuel
  induction fuel with
  | zero => intro i _; rfl
  | succ n ih =>
    intro i h
    have hi : slugExists store (slug ++ "-" ++ toString i) = true :=
      h i le_rfl (by omega)
    simp only [suggestAlternativeGo, hi, if_true]
    exact ih (i + 1) (fun j hj1 hj2 => h j (by omega) (by omega))

theorem suggestAlternativeGo_first (store : List URL) (slug : String) :
    ∀ fuel i j, i ≤ j → j < i + fuel →
      slugExists store (slug ++ "-" ++ toString j) = false →
      (∀ k, i ≤ k → k < j → slugExists store (slug ++ "-" ++ toString k) = true) →
      suggestAlternativeGo store slug i fuel = slug ++ "-" ++ toString j := by
  intro fuel
  induction fuel with
  | zero => intro i j h1 h2 _ _; omega
  | succ n ih =>
    intro i j h1 h2 hfree htaken
    rcases eq_or_lt_of_le h1 with rfl | hlt
    · simp only [suggestAlternativeGo, hfree, Bool.false_eq_true, if_false]
    · have hi := htaken i le_rfl hlt
      simp only [suggestAlternativeGo, hi, if_true]
      exact ih (i + 1) j (by omega) (by omega) hfree
        (fun k hk1 hk2 => htaken k (by omega) hk2)

theorem suggestAlternativeGo_free (store : List URL) (slug : String) :
    ∀ fuel i, suggestAlternativeGo store slug i fuel = "" ∨
      slugExists store (suggestAlternativeGo store slug i fuel) = false := by
  intro fuel
  induction fuel with
  | zero => intro _; exact Or.inl rfl
  | succ n ih =>
    intro i
    cases hi : slugExists store (slug ++ "-" ++ toString i) with
    | true =>
      simp only [suggestAlternativeGo, hi, if_true]
      exact ih (i + 1)
    | false =>
      right
      simp only [suggestAlternativeGo, hi, Bool.false_eq_true, if_false]

theorem append_dash_ne_empty (slug : String) (j : Nat) :
    slug ++ "-" ++ toString j ≠ "" := by
  intro h
  have hl := congrArg String.length h
  rw [String.length_append, String.length_append,
    show ("-" : String).length = 1 from rfl,
    show ("" : String).length = 0 from rfl] at hl
  omega

theorem resolveSlug_taken (store : List URL) (fuel : Nat) (stream : List Nat)
    (s : String) (hvalid : matchesSlugPattern s = true)
    (htaken : slugExists store s = true) :
    resolveSlug store fuel stream s =
      if suggestAlternative store s ≠ "" then
        .ok (suggestAlternative store s, stream)
      else .error .ErrSlugTaken := by
  have hne : ¬ s = "" := by
    intro h; subst h; exact absurd hvalid (by decide)
  simp [resolveSlug, hne, hvalid, htaken]

/-- The base62 alphabet as a character test (digits and ASCII letters). -/
def isBase62Char (c : Char) : Bool :=
  ('0' ≤ c && c ≤ '9') || ('A' ≤ c && c ≤ 'Z') || ('a' ≤ c && c ≤ 'z')

theorem base62Char_base62 (b : Nat) : isBase62Char (base62Char b) = true := by
  have h : ∀ i : Fin 62, isBase62Char (base62Chars.data.getD i.val '0') = true := by
    decide
  exact h ⟨b % 62, Nat.mod_lt _ (by norm_num)⟩

theorem hexEncode_length (bs : List Nat) :
    (hexEncode bs).length = 2 * bs.length := by
  induction bs with
  | nil => rfl
  | cons b tl ih =>
    show (hexDigit (b / 16) :: hexDigit (b % 16)
      :: (hexEncode tl).data).length = _
    simp only [List.length_cons, List.length]
    have : (hexEncode tl).data.length = 2 * tl.length := ih
    omega

theorem absorbBuf_length_le (len : Nat) :
    ∀ buf acc, acc.length < len → (absorbBuf len acc buf).length ≤ len := by
  intro buf
  induction buf with
  | nil => intro acc h; exact le_of_lt h
  | cons b rest ih =>
    intro acc h
    simp only [absorbBuf]
    split
    · split
      · next heq => omega
      · next hne =>
        apply ih
        have : (acc ++ [base62Char b]).length = acc.length + 1 := by simp
        omega
    · exact ih acc h

theorem absorbBuf_chars (len : Nat) :
    ∀ buf acc, acc.all isBase62Char = true →
      (absorbBuf len acc buf).all isBase62Char = true := by
  intro buf
  induction buf with
  | nil => intro acc h; exact h
  | cons b rest ih =>
    intro acc h
    have hacc : (acc ++ [base62Char b]).all isBase62Char = true := by
      simp [List.all_append, h, base62Char_base62]
    simp only [absorbBuf]
    split
    · split
      · exact hacc
      · exact ih _ hacc
    · exact ih acc h

theorem randomBase62Go_spec (len : Nat) :
    ∀ fuel acc stream str rest, acc.length ≤ len →
      acc.all isBase62Char = true →
      randomBase62Go len fuel acc stream = some (str, rest) →
      str.length = len ∧ str.data.all isBase62Char = true := by
  intro fuel
  induction fuel with
  | zero =>
    intro acc stream str rest hle hall h
    simp only [randomBase62Go] at h
    split at h
    · next hge =>
      obtain ⟨rfl, rfl⟩ : (⟨acc⟩ : String) = str ∧ stream = rest := by
        cases h; exact ⟨rfl, rfl⟩
      exact ⟨le_antisymm hle hge, hall⟩
    · cases h
  | succ n ih =>
    intro acc stream str rest hle hall h
    simp only [randomBase62Go] at h
    split at h
    · next hge =>
      obtain ⟨rfl, rfl⟩ : (⟨acc⟩ : String) = str ∧ stream = rest := by
        cases h; exact ⟨rfl, rfl⟩
      exact ⟨le_antisymm hle hge, hall⟩
    · next hlt =>
      split at h
      · cases h
      · exact ih _ _ _ _ (absorbBuf_length_le len _ acc (by omega))
          (absorbBuf_chars len _ acc hall) h

theorem randomBase62_spec (len fuel : Nat) (stream : List Nat) (str : String)
    (rest : List Nat) (h : randomBase62 len fuel stream = some (str, rest)) :
    str.length = len ∧ str.data.all isBase62Char = true :=
  randomBase62Go_spec len fuel [] stream str rest (Nat.zero_le len) rfl h

theorem generateUniqueSlugGo_ok (store : List URL) (fuel : Nat) :
    ∀ tries stream slug rest,
      generateUniqueSlugGo store fuel tries stream = .ok (slug, rest) →
      slug.length = autoSlugLength ∧ slug.data.all isBase62Char = true ∧
      slugExists store slug = false := by
  intro tries
  induction tries with
  | zero => intro stream slug rest h; cases h
  | succ n ih =>
    intro stream slug rest h
    cases hr : randomBase62 autoSlugLength fuel stream with
    | none =>
      simp only [generateUniqueSlugGo, hr] at h
      exact Except.noConfusion h
    | some p =>
      obtain ⟨s, r⟩ := p
      simp only [generateUniqueSlugGo, hr] at h
      split at h
      · exact ih r slug rest h
      · next hcond =>
        obtain ⟨rfl, rfl⟩ : s = slug ∧ r = rest := by
          cases h; exact ⟨rfl, rfl⟩
        obtain ⟨h1, h2⟩ := randomBase62_spec autoSlugLength fuel stream s r hr
        exact ⟨h1, h2, Bool.eq_false_iff.mpr hcond⟩

theorem String.ne_of_length_ne {s t : String} (h : s.length ≠ t.length) :
    s ≠ t := fun he => h (he ▸ rfl)

/-! ## Claims -/

/-- C9.  The slug format validator accepts a string iff it has 5 to 50
characters, all drawn from ASCII letters, digits and hyphen. -/
theorem C9_slug_validator (s : String) :
    matchesSlugPattern s = true ↔
      (5 ≤ s.length ∧ s.length ≤ 50 ∧
        ∀ c ∈ s.data, ('A' ≤ c ∧ c ≤ 'Z') ∨ ('a' ≤ c ∧ c ≤ 'z') ∨
          ('0' ≤ c ∧ c ≤ '9') ∨ c = '-') := by
  simp only [matchesSlugPattern, slugMinLength, slugMaxLength, Bool.and_eq_true,
    decide_eq_true_eq, List.all_eq_true, isSlugChar, Bool.or_eq_true]
  constructor
  · rintro ⟨⟨h1, h2⟩, h3⟩
    exact ⟨h1, h2, fun c hc => by have := h3 c hc; tauto⟩
  · rintro ⟨h1, h2, h3⟩
    exact ⟨⟨h1, h2⟩, fun c hc => by have := h3 c hc; tauto⟩

/-- A concrete state for the C1 analysis: the record for `"abcde"` expired at
time 5, yet the cache still holds its entry. -/
def c1Record : URL :=
  { Slug := "abcde", TargetURL := "http://t", PasswordHash := none
    ManageTokenHash := "h", ExpiresAt := 5 }

/-- The cached projection of `c1Record`. -/
def c1CacheEntry : CachedURL :=
  { TargetURL := "http://t", Protected := false, PasswordHash := "" }

/-- The C1 state: store holds only the expired record, cache still holds the
projected entry for the same slug. -/
def c1State : ServiceState :=
  { store := [c1Record], cache := [("abcde", c1CacheEntry)] }

/-- C1 counterexample.  At time 10 the only record for `"abcde"` has expired
(its expiration 5 has passed), the cache still honestly answers with its
unevicted entry, and `Resolve` returns that entry rather than "not found":
the cache hit short-circuits the store's expiration check. -/
theorem C1_counterexample :
    (∀ u ∈ c1State.store, u.Slug = "abcde" → u.ExpiresAt ≤ 10) ∧
    (Resolve c1State (honestGet c1State "abcde") true "abcde" 10).1 ≠ none := by
  decide

/-- C1 (amended).  When the cache does not return an entry — it misses or
fails — `Resolve` of a slug all of whose records have expired returns "not
found" (`none`): the store's expiration check decides liveness on every
cache miss, but an unevicted cache hit is returned without consulting the
store. -/
theorem C1_resolve_expired_cache_miss (st : ServiceState)
    (gres : Except Unit (Option CachedURL)) (setOk : Bool) (slug : String)
    (now : Int) (hg : gres = .ok none ∨ gres = .error ())
    (hexp : ∀ u ∈ st.store, u.Slug = slug → u.ExpiresAt ≤ now) :
    (Resolve st gres setOk slug now).1 = none := by
  have hfind := findBySlug_eq_none_of_expired st.store slug now hexp
  rcases hg with rfl | rfl <;> simp [Resolve, lookupCached, hfind]

/-- C1 witness: the amended theorem applied at the concrete expired state with
an empty cache. -/
theorem C1_resolve_expired_cache_miss_witness :
    (Resolve { store := [c1Record], cache := [] } (.ok none) true "abcde" 10).1
      = none :=
  C1_resolve_expired_cache_miss _ _ _ _ _ (Or.inl rfl) (by decide)

/-- C8.  Cache failures never fail the operation: a failed cache `Get` behaves
exactly like a miss (so the lookup falls back to the durable store), the value
`lookupCached` returns does not depend on whether the repopulating `Set`
succeeded, `VerifyPassword` is unaffected by a failed `Get`, and a failed
pre-warm `Set` after `Create`'s durable write changes neither the result nor
the stored record, nor which errors `Create` can return. -/
theorem C8_cache_failure_degrades :
    (∀ st setOk slug now,
      lookupCached st (.error ()) setOk slug now
        = lookupCached st (.ok none) setOk slug now) ∧
    (∀ st gres setOk slug now,
      (lookupCached st gres setOk slug now).1
        = (lookupCached st gres true slug now).1) ∧
    (∀ bm st setOk slug pw now,
      VerifyPassword bm st (.error ()) setOk slug pw now
        = VerifyPassword bm st (.ok none) setOk slug pw now) ∧
    (∀ sha256 bc baseURL st fuel stream now req res st₁,
      Create sha256 bc baseURL st true fuel stream now req = .ok (res, st₁) →
      ∃ st₂, Create sha256 bc baseURL st false fuel stream now req
          = .ok (res, st₂) ∧ st₂.store = st₁.store) ∧
    (∀ sha256 bc baseURL st setOk fuel stream now req e,
      Create sha256 bc baseURL st setOk fuel stream now req = .error e ↔
      Create sha256 bc baseURL st true fuel stream now req = .error e) := by
  refine ⟨fun st setOk slug now => lookupCached_err_eq_miss st setOk slug now,
    fun st gres setOk slug now => lookupCached_fst_setOk st gres setOk true slug now,
    fun bm st setOk slug pw now => rfl, ?_,
    fun sha256 bc baseURL st setOk fuel stream now req e =>
      Create_setOk_error_iff sha256 bc baseURL st setOk true fuel stream now req e⟩
  intro sha256 bc baseURL st fuel stream now req res st₁ h
  obtain ⟨d, slug, stream', tok, tokHash, rest, httl, hres, htok, hfree, hr, hst⟩ :=
    Create_ok_inv _ _ _ _ _ _ _ _ _ _ _ h
  subst hr hst
  have hc := Create_eq_ok sha256 bc baseURL st false fuel stream stream' rest
    now req d slug tok tokHash httl hres htok hfree
  exact ⟨_, hc, by simp⟩

/-- Concrete instances backing the C8 witness. -/
def demoReq : CreateRequest :=
  { TargetURL := "http://t", Slug := "abcde", TTL := "24h", Password := "" }

/-- The result of the concrete C8 `Create` call. -/
def demoRes : CreateResult :=
  { Slug := "abcde", ShortURL := "b/abcde", ExpiresAt := 86400
    Protected := false
    ManageToken := "00000000000000000000000000000000" }

/-- The state after the concrete C8 `Create` call with a working cache. -/
def demoSt1 : ServiceState :=
  { store := [{ Slug := "abcde", TargetURL := "http://t", PasswordHash := none
                ManageTokenHash := "", ExpiresAt := 86400 }]
    cache := [("abcde", ⟨"http://t", false, ""⟩)] }

/-- C8 witness: the `Create` clause applied at a concrete call. -/
theorem C8_cache_failure_degrades_witness :
    ∃ st₂, Create (fun _ => []) (fun s => s) "b" { store := [], cache := [] }
        false 1 (List.replicate 32 0) 0 demoReq = .ok (demoRes, st₂) ∧
      st₂.store = demoSt1.store :=
  C8_cache_failure_degrades.2.2.2.1 (fun _ => []) (fun s => s) "b"
    { store := [], cache := [] } 1 (List.replicate 32 0) 0 demoReq demoRes demoSt1
    rfl

/-- C7.  For a live record reached by the lookup (cache miss, or an honest
cache hit): a protected record yields the target URL exactly when the bcrypt
comparison accepts the password and `ErrInvalidPassword` otherwise, while an
unprotected record yields the target URL for every password, including the
empty one. -/
theorem C7_verify_password (bm : String → String → Bool) (st : ServiceState)
    (gres : Except Unit (Option CachedURL)) (setOk : Bool) (slug : String)
    (now : Int) (r : URL)
    (hfind : findBySlug st.store slug now = some r)
    (hg : gres = .ok none ∨ gres = .ok (some r.toCached)) :
    (∀ h pw, r.PasswordHash = some h → bm h pw = true →
      ∃ st', VerifyPassword bm st gres setOk slug pw now
        = .ok (some r.TargetURL, st')) ∧
    (∀ h pw, r.PasswordHash = some h → bm h pw = false →
      VerifyPassword bm st gres setOk slug pw now
        = .error .ErrInvalidPassword) ∧
    (r.PasswordHash = none → ∀ pw,
      ∃ st', VerifyPassword bm st gres setOk slug pw now
        = .ok (some r.TargetURL, st')) := by
  have hv := lookupCached_found st gres setOk slug now r hfind hg
  cases hp : lookupCached st gres setOk slug now with
  | mk v st2 =>
    rw [hp] at hv
    obtain rfl : v = some r.toCached := hv
    refine ⟨?_, ?_, ?_⟩
    · intro h pw hph hbm
      exact ⟨st2, by simp [VerifyPassword, hp, URL.toCached, hph, hbm]⟩
    · intro h pw hph hbm
      simp [VerifyPassword, hp, URL.toCached, hph, hbm]
    · intro hph pw
      exact ⟨st2, by simp [VerifyPassword, hp, URL.toCached, hph]⟩

/-- C6.  The TTL whitelist maps exactly `1h` to one hour, `24h` to one day,
`168h` to one week, `720h` to 30 days and `8760h` to 365 days; every
successful `Create` stamps both the result and the stored record with
creation time plus the mapped duration, and any TTL outside the whitelist
makes `Create` return `ErrInvalidTTL` (no write happens: the error is raised
before the durable insert). -/
theorem C6_ttl_mapping :
    (ttlLookup "1h" = some 3600 ∧ ttlLookup "24h" = some (24 * 3600) ∧
     ttlLookup "168h" = some (7 * 24 * 3600) ∧
     ttlLookup "720h" = some (30 * 24 * 3600) ∧
     ttlLookup "8760h" = some (365 * 24 * 3600)) ∧
    (∀ t, ¬ t = "1h" → ¬ t = "24h" → ¬ t = "168h" → ¬ t = "720h" →
      ¬ t = "8760h" → ttlLookup t = none) ∧
    (∀ sha256 bc baseURL st setOk fuel stream now req d res st',
      ttlLookup req.TTL = some d →
      Create sha256 bc baseURL st setOk fuel stream now req = .ok (res, st') →
      res.ExpiresAt = now + d ∧
      ∃ u, st'.store = st.store ++ [u] ∧ u.ExpiresAt = now + d) ∧
    (∀ sha256 bc baseURL st setOk fuel stream now req,
      ttlLookup req.TTL = none →
      Create sha256 bc baseURL st setOk fuel stream now req
        = .error .ErrInvalidTTL) := by
  refine ⟨⟨rfl, rfl, rfl, rfl, rfl⟩, ?_, ?_, ?_⟩
  · intro t h1 h2 h3 h4 h5
    have e1 : ¬ ("1h" = t) := fun h => h1 h.symm
    have e2 : ¬ ("24h" = t) := fun h => h2 h.symm
    have e3 : ¬ ("168h" = t) := fun h => h3 h.symm
    have e4 : ¬ ("720h" = t) := fun h => h4 h.symm
    have e5 : ¬ ("8760h" = t) := fun h => h5 h.symm
    simp [ttlLookup, validTTLs, List.find?, e1, e2, e3, e4, e5]
  · intro sha256 bc baseURL st setOk fuel stream now req d res st' httl h
    obtain ⟨d', slug, stream', tok, tokHash, rest, httl', hres, htok, hfree,
      hr, hst⟩ := Create_ok_inv _ _ _ _ _ _ _ _ _ _ _ h
    rw [httl] at httl'
    obtain rfl : d = d' := Option.some_injective _ httl'
    subst hr hst
    exact ⟨rfl, createdURL bc req slug tokHash (now + d), rfl, rfl⟩
  · intro sha256 bc baseURL st setOk fuel stream now req httl
    simp [Create, httl]

/-- C6 witness: the success clause at a concrete `24h` creation, plus the
error clause at a concrete invalid TTL. -/
theorem C6_ttl_mapping_witness :
    (demoRes.ExpiresAt = 0 + 86400 ∧
      ∃ u, demoSt1.store = ([] : List URL) ++ [u] ∧ u.ExpiresAt = 0 + 86400) ∧
    Create (fun _ => []) (fun s => s) "b" { store := [], cache := [] } true 1
        (List.replicate 32 0) 0
        { TargetURL := "http://t", Slug := "abcde", TTL := "5h", Password := "" }
      = .error .ErrInvalidTTL :=
  ⟨C6_ttl_mapping.2.2.1 (fun _ => []) (fun s => s) "b"
      { store := [], cache := [] } true 1 (List.replicate 32 0) 0 demoReq
      86400 demoRes demoSt1 rfl rfl,
   C6_ttl_mapping.2.2.2 (fun _ => []) (fun s => s) "b"
      { store := [], cache := [] } true 1 (List.replicate 32 0) 0
      { TargetURL := "http://t", Slug := "abcde", TTL := "5h", Password := "" }
      rfl⟩

/-- C2.  For a live record and the correct management token, `ExpireEarly`
succeeds exactly once: the first call rewrites the record's expiration to the
current time, and any later call for that slug — same token, any token —
fails with `ErrInvalidManageToken` because the conditional update no longer
affects a row; a wrong token fails the same way already on a live record. -/
theorem C2_expire_early_once (sha256 : String → List Nat) (st : ServiceState)
    (delOk : Bool) (slug token : String) (now : Int) (r : URL)
    (hmem : r ∈ st.store) (hslug : r.Slug = slug)
    (huniq : ∀ u ∈ st.store, u.Slug = slug → u = r)
    (hlive : now < r.ExpiresAt)
    (htok : hexEncode (sha256 token) = r.ManageTokenHash) :
    (∃ st', ExpireEarly sha256 st delOk slug token now = .ok st' ∧
      { r with ExpiresAt := now } ∈ st'.store ∧
      (∀ u ∈ st'.store, u.Slug = slug → u = { r with ExpiresAt := now }) ∧
      (∀ delOk₂ token₂ now₂, now ≤ now₂ →
        ExpireEarly sha256 st' delOk₂ slug token₂ now₂
          = .error .ErrInvalidManageToken)) ∧
    (∀ token', hexEncode (sha256 token') ≠ r.ManageTokenHash →
      ExpireEarly sha256 st delOk slug token' now
        = .error .ErrInvalidManageToken) := by
  have hhit : (r.Slug = slug && r.ManageTokenHash = hexEncode (sha256 token)
      && decide (now < r.ExpiresAt)) = true := by
    simp [hslug, htok.symm, hlive]
  constructor
  · have hok := ExpireEarly_ok sha256 st delOk slug token now r hmem hhit
    have hmem' : ({ r with ExpiresAt := now } : URL) ∈ st.store.map (fun v =>
        if v.Slug = slug && v.ManageTokenHash = hexEncode (sha256 token)
            && decide (now < v.ExpiresAt)
        then { v with ExpiresAt := now } else v) :=
      List.mem_map.mpr ⟨r, hmem, by rw [if_pos hhit]⟩
    have huniq' : ∀ u ∈ st.store.map (fun v =>
        if v.Slug = slug && v.ManageTokenHash = hexEncode (sha256 token)
            && decide (now < v.ExpiresAt)
        then { v with ExpiresAt := now } else v),
        u.Slug = slug → u = { r with ExpiresAt := now } := by
      intro u hu hus
      obtain ⟨v, hv, hvu⟩ := List.mem_map.mp hu
      by_cases hcond : (v.Slug = slug
          && v.ManageTokenHash = hexEncode (sha256 token)
          && decide (now < v.ExpiresAt)) = true
      · rw [if_pos hcond] at hvu
        subst hvu
        have hvr := huniq v hv hus
        rw [hvr]
      · rw [if_neg hcond] at hvu
        subst hvu
        have hvr := huniq v hv hus
        subst hvr
        exact absurd hhit hcond
    refine ⟨_, hok, hmem', huniq', ?_⟩
    intro delOk₂ token₂ now₂ hle
    apply ExpireEarly_fail
    intro u hu
    by_cases hsl : u.Slug = slug
    · have hur := huniq' u hu hsl
      rw [hur]
      have hnlt : ¬ (now₂ < ({ r with ExpiresAt := now } : URL).ExpiresAt) := by
        simp only []
        omega
      simp [hnlt]
    · simp [hsl]
  · intro token' hne
    apply ExpireEarly_fail
    intro u hu
    by_cases hsl : u.Slug = slug
    · have hur := huniq u hu hsl
      subst hur
      simp [hne.symm]
    · simp [hsl]

/-- C3.  When the requested slug is valid but already present, `Create`
assigns the first available `slug-N` with `N = 2, …, 10`, and returns
`ErrSlugTaken` when every probed variant up to the bound is taken. -/
theorem C3_create_suffix_probe (sha256 : String → List Nat)
    (bcryptHash : String → String) (baseURL : String) (st : ServiceState)
    (setOk : Bool) (fuel : Nat) (stream rest : List Nat) (now : Int)
    (req : CreateRequest) (d : Int) (tok tokHash : String)
    (httl : ttlLookup req.TTL = some d)
    (hvalid : matchesSlugPattern req.Slug = true)
    (htaken : slugExists st.store req.Slug = true)
    (htok : generateManageToken sha256 fuel stream = some (tok, tokHash, rest)) :
    (∀ N, 2 ≤ N → N ≤ 10 →
      slugExists st.store (req.Slug ++ "-" ++ toString N) = false →
      (∀ M, 2 ≤ M → M < N →
        slugExists st.store (req.Slug ++ "-" ++ toString M) = true) →
      ∃ res st', Create sha256 bcryptHash baseURL st setOk fuel stream now req
          = .ok (res, st') ∧ res.Slug = req.Slug ++ "-" ++ toString N) ∧
    ((∀ N, 2 ≤ N → N ≤ 10 →
        slugExists st.store (req.Slug ++ "-" ++ toString N) = true) →
      Create sha256 bcryptHash baseURL st setOk fuel stream now req
        = .error .ErrSlugTaken) := by
  constructor
  · intro N h2 h10 hfree hprev
    have hsa : suggestAlternative st.store req.Slug
        = req.Slug ++ "-" ++ toString N :=
      suggestAlternativeGo_first st.store req.Slug 9 2 N h2 (by omega) hfree
        (fun k hk1 hk2 => hprev k hk1 hk2)
    have hres := resolveSlug_taken st.store fuel stream req.Slug hvalid htaken
    rw [hsa, if_pos (append_dash_ne_empty req.Slug N)] at hres
    exact ⟨_, _, Create_eq_ok sha256 bcryptHash baseURL st setOk fuel stream
      stream rest now req d _ tok tokHash httl hres htok hfree, rfl⟩
  · intro hall
    have hsa : suggestAlternative st.store req.Slug = "" :=
      suggestAlternativeGo_all_taken st.store req.Slug 9 2
        (fun j hj1 hj2 => hall j hj1 (by omega))
    have hres := resolveSlug_taken st.store fuel stream req.Slug hvalid htaken
    rw [hsa, if_neg (by simp)] at hres
    simp [Create, httl, hres]

/-- The concrete store for the C3 witness: `"abcde"` and `"abcde-2"` taken. -/
def c3Store : List URL :=
  [{ Slug := "abcde", TargetURL := "http://t", PasswordHash := none
     ManageTokenHash := "", ExpiresAt := 100 },
   { Slug := "abcde-2", TargetURL := "http://u", PasswordHash := none
     ManageTokenHash := "", ExpiresAt := 100 }]

/-- C3 witness: with `"abcde"` and `"abcde-2"` taken, the created slug is
`"abcde-3"`. -/
theorem C3_create_suffix_probe_witness :
    ∃ res st', Create (fun _ => []) (fun s => s) "b"
        { store := c3Store, cache := [] } true 1 (List.replicate 32 0) 0
        { TargetURL := "http://t", Slug := "abcde", TTL := "24h", Password := "" }
      = .ok (res, st') ∧ res.Slug = "abcde" ++ "-" ++ toString 3 :=
  (C3_create_suffix_probe (fun _ => []) (fun s => s) "b"
      { store := c3Store, cache := [] } true 1 (List.replicate 32 0) []
      0 { TargetURL := "http://t", Slug := "abcde", TTL := "24h", Password := "" }
      86400 "00000000000000000000000000000000" "" rfl (by decide) (by decide)
      rfl).1 3 (by decide) (by decide) (by decide)
    (fun M h1 h2 => by
      interval_cases M
      decide)

/-- C5.  On a valid taken slug, the suggestion `CheckSlug` returns is exactly
`suggestAlternative` over the current store, and whenever that suggestion is
non-empty it is also exactly the slug `Create` assigns as its suffixed
fallback over the same store. -/
theorem C5_checkslug_matches_create (sha256 : String → List Nat)
    (bcryptHash : String → String) (baseURL : String) (st : ServiceState)
    (setOk : Bool) (fuel : Nat) (stream rest : List Nat) (now : Int)
    (req : CreateRequest) (d : Int) (tok tokHash : String)
    (httl : ttlLookup req.TTL = some d)
    (hvalid : matchesSlugPattern req.Slug = true)
    (htaken : slugExists st.store req.Slug = true)
    (htok : generateManageToken sha256 fuel stream = some (tok, tokHash, rest)) :
    CheckSlug st.store req.Slug
      = .ok (false, suggestAlternative st.store req.Slug) ∧
    (suggestAlternative st.store req.Slug ≠ "" →
      ∃ res st', Create sha256 bcryptHash baseURL st setOk fuel stream now req
          = .ok (res, st') ∧
        res.Slug = suggestAlternative st.store req.Slug) := by
  constructor
  · simp [CheckSlug, hvalid, htaken]
  · intro hne
    have hfree : slugExists st.store (suggestAlternative st.store req.Slug)
        = false := by
      rcases suggestAlternativeGo_free st.store req.Slug 9 2 with h | h
      · exact absurd h hne
      · exact h
    have hres := resolveSlug_taken st.store fuel stream req.Slug hvalid htaken
    rw [if_pos hne] at hres
    exact ⟨_, _, Create_eq_ok sha256 bcryptHash baseURL st setOk fuel stream
      stream rest now req d _ tok tokHash httl hres htok hfree, rfl⟩

/-- C5 witness: at the concrete two-record store, `CheckSlug` suggests
`"abcde-3"` and `Create` assigns the same. -/
theorem C5_checkslug_matches_create_witness :
    CheckSlug c3Store "abcde" = .ok (false, suggestAlternative c3Store "abcde") ∧
    (suggestAlternative c3Store "abcde" ≠ "" →
      ∃ res st', Create (fun _ => []) (fun s => s) "b"
          { store := c3Store, cache := [] } true 1 (List.replicate 32 0) 0
          { TargetURL := "http://t", Slug := "abcde", TTL := "24h",
            Password := "" }
        = .ok (res, st') ∧ res.Slug = suggestAlternative c3Store "abcde") :=
  C5_checkslug_matches_create (fun _ => []) (fun s => s) "b"
    { store := c3Store, cache := [] } true 1 (List.replicate 32 0) [] 0
    { TargetURL := "http://t", Slug := "abcde", TTL := "24h", Password := "" }
    86400 "00000000000000000000000000000000" "" rfl (by decide) (by decide) rfl

/-- A valid slug of the maximum length 50. -/
def slug50 : String := "aaaaaaaaaaaaaaaaaaaaaaaaaaaaaaaaaaaaaaaaaaaaaaaaaa"

/-- A store in which `slug50` is taken and every variant is free. -/
def store50 : List URL :=
  [{ Slug := slug50, TargetURL := "http://t", PasswordHash := none
     ManageTokenHash := "", ExpiresAt := 100 }]

/-- C4.  `suggestAlternative` returns exactly `slug ++ "-" ++ N` for the
least available `N ∈ [2, 10]`, and the candidate is never re-checked against
the slug format validator: for a taken valid slug of length 50, both `Create`
and `CheckSlug` hand out a 52-character suggestion that itself fails the
50-character validator. -/
theorem C4_suffix_skips_validator :
    (∀ store slug N, 2 ≤ N → N ≤ 10 →
      slugExists store (slug ++ "-" ++ toString N) = false →
      (∀ M, 2 ≤ M → M < N →
        slugExists store (slug ++ "-" ++ toString M) = true) →
      suggestAlternative store slug = slug ++ "-" ++ toString N) ∧
    (matchesSlugPattern slug50 = true ∧ slugExists store50 slug50 = true) ∧
    ((Create (fun _ => []) (fun s => s) "b" { store := store50, cache := [] }
        true 1 (List.replicate 32 0) 0
        { TargetURL := "http://t", Slug := slug50, TTL := "24h",
          Password := "" }).map (fun p => p.1.Slug)
      = .ok (slug50 ++ "-2") ∧
     (slug50 ++ "-2").length = 52 ∧
     matchesSlugPattern (slug50 ++ "-2") = false) ∧
    (CheckSlug store50 slug50 = .ok (false, slug50 ++ "-2") ∧
     (slug50 ++ "-2").length = 52) := by
  refine ⟨?_, by decide, ⟨rfl, by decide, by decide⟩, ⟨rfl, by decide⟩⟩
  intro store slug N h2 h10 hfree hprev
  exact suggestAlternativeGo_first store slug 9 2 N h2 (by omega) hfree hprev

/-- C4 witness: the general first-variant clause applied at the concrete
50-character store. -/
theorem C4_suffix_skips_validator_witness :
    suggestAlternative store50 slug50 = slug50 ++ "-" ++ toString 2 :=
  C4_suffix_skips_validator.1 store50 slug50 2 (by decide) (by decide)
    (by decide) (fun M h1 h2 => absurd h2 (Nat.not_lt.mpr h1))

/-- The SHA-256 stand-in used by concrete witnesses: a constant 32-byte
digest. -/
def shaZero : String → List Nat := fun _ => List.replicate 32 0

/-- A concrete live record whose manage-token hash matches `shaZero`. -/
def c2Record : URL :=
  { Slug := "abcde", TargetURL := "http://t", PasswordHash := none
    ManageTokenHash := hexEncode (List.replicate 32 0), ExpiresAt := 100 }

/-- The concrete C2 starting state. -/
def c2State : ServiceState := { store := [c2Record], cache := [] }

/-- C2 witness: the first call at a concrete live record, with the
second-call clause retained. -/
theorem C2_expire_early_once_witness :
    ∃ st', ExpireEarly shaZero c2State true "abcde" "t" 0 = .ok st' ∧
      { c2Record with ExpiresAt := 0 } ∈ st'.store ∧
      (∀ u ∈ st'.store, u.Slug = "abcde" →
        u = { c2Record with ExpiresAt := 0 }) ∧
      (∀ delOk₂ token₂ now₂, (0 : Int) ≤ now₂ →
        ExpireEarly shaZero st' delOk₂ "abcde" token₂ now₂
          = .error .ErrInvalidManageToken) :=
  (C2_expire_early_once shaZero c2State true "abcde" "t" 0 c2Record
    (by decide) rfl (by decide) (by decide) rfl).1

/-- A concrete live protected record for the C7 witness. -/
def c7Record : URL :=
  { Slug := "abcde", TargetURL := "http://t", PasswordHash := some "H"
    ManageTokenHash := "mh", ExpiresAt := 100 }

/-- C7 witness: correct password on a live protected record, through a cache
miss, at a concrete state. -/
theorem C7_verify_password_witness :
    ∃ st', VerifyPassword (fun h pw => h = pw)
        { store := [c7Record], cache := [] } (.ok none) true "abcde" "H" 0
      = .ok (some c7Record.TargetURL, st') :=
  (C7_verify_password (fun h pw => h = pw) { store := [c7Record], cache := [] }
      (.ok none) true "abcde" 0 c7Record (by decide) (Or.inl rfl)).1
    "H" "H" rfl (by decide)

/-- C10.  A `Create` that omits the slug and carries no password yields a
generated slug of exactly 8 base62 characters, `Protected = false`, and a
plaintext manage token of 32 characters whose persisted hash — the 64-char
hex encoding of its SHA-256 — differs from the plaintext; the record stores
only that hash. -/
theorem C10_create_autogen (sha256 : String → List Nat)
    (bcryptHash : String → String) (baseURL : String) (st : ServiceState)
    (setOk : Bool) (fuel : Nat) (stream : List Nat) (now : Int)
    (req : CreateRequest) (res : CreateResult) (st' : ServiceState)
    (hsha : ∀ s, (sha256 s).length = 32)
    (hslug : req.Slug = "") (hpw : req.Password = "")
    (hok : Create sha256 bcryptHash baseURL st setOk fuel stream now req
      = .ok (res, st')) :
    res.Slug.length = 8 ∧ res.Slug.data.all isBase62Char = true ∧
    res.Protected = false ∧ res.ManageToken.length = 32 ∧
    ∃ u, st'.store = st.store ++ [u] ∧
      u.ManageTokenHash = hexEncode (sha256 res.ManageToken) ∧
      u.ManageTokenHash.length = 64 ∧
      res.ManageToken ≠ u.ManageTokenHash ∧ u.PasswordHash = none := by
  obtain ⟨d, slug, stream', tok, tokHash, rest, httl, hres, htok, hfree, hr, hst⟩ :=
    Create_ok_inv _ _ _ _ _ _ _ _ _ _ _ hok
  subst hr hst
  rw [hslug] at hres
  have hgen : generateUniqueSlugGo st.store fuel maxAutoSlugTries stream
      = .ok (slug, stream') := by
    simpa [resolveSlug, generateUniqueSlug] using hres
  obtain ⟨hlen8, hchars, _⟩ :=
    generateUniqueSlugGo_ok st.store fuel maxAutoSlugTries stream slug stream' hgen
  have htokinv : tok.length = 32 ∧ tokHash = hexEncode (sha256 tok) := by
    cases hr2 : randomBase62 manageTokenLength fuel stream' with
    | none =>
      simp only [generateManageToken, hr2] at htok
      exact Option.noConfusion htok
    | some p =>
      obtain ⟨plain, r2⟩ := p
      simp only [generateManageToken, hr2] at htok
      obtain ⟨rfl, h2, rfl⟩ : plain = tok ∧ hexEncode (sha256 plain) = tokHash
          ∧ r2 = rest := by
        cases htok; exact ⟨rfl, rfl, rfl⟩
      exact ⟨(randomBase62_spec manageTokenLength fuel stream' plain r2 hr2).1,
        h2.symm⟩
  obtain ⟨hlen32, htokhash⟩ := htokinv
  have hhashlen : tokHash.length = 64 := by
    rw [htokhash, hexEncode_length, hsha]
  refine ⟨hlen8, hchars, ?_, hlen32,
    createdURL bcryptHash req slug tokHash (now + d), rfl, ?_, ?_, ?_, ?_⟩
  · simp [createdResult, passwordHashOf, hpw]
  · simpa [createdURL, createdResult] using htokhash
  · simpa [createdURL] using hhashlen
  · apply String.ne_of_length_ne
    show tok.length ≠ tokHash.length
    omega
  · simp [createdURL, passwordHashOf, hpw]

/-- The concrete C10 request: slug omitted, no password. -/
def c10Req : CreateRequest :=
  { TargetURL := "http://t", Slug := "", TTL := "24h", Password := "" }

/-- The concrete C10 result: an 8-char generated slug and a 32-char token. -/
def c10Res : CreateResult :=
  { Slug := "00000000", ShortURL := "b/00000000", ExpiresAt := 86400
    Protected := false
    ManageToken := "00000000000000000000000000000000" }

/-- The state after the concrete C10 `Create` call. -/
def c10St : ServiceState :=
  { store := [{ Slug := "00000000", TargetURL := "http://t"
                PasswordHash := none
                ManageTokenHash := hexEncode (List.replicate 32 0)
                ExpiresAt := 86400 }]
    cache := [("00000000", ⟨"http://t", false, ""⟩)] }

/-- C10 witness: the theorem applied at a concrete slugless creation. -/
theorem C10_create_autogen_witness :
    c10Res.Slug.length = 8 ∧ c10Res.Slug.data.all isBase62Char = true ∧
    c10Res.Protected = false ∧ c10Res.ManageToken.length = 32 ∧
    ∃ u, c10St.store = ([] : List URL) ++ [u] ∧
      u.ManageTokenHash = hexEncode (shaZero c10Res.ManageToken) ∧
      u.ManageTokenHash.length = 64 ∧
      c10Res.ManageToken ≠ u.ManageTokenHash ∧ u.PasswordHash = none :=
  C10_create_autogen shaZero (fun s => s) "b" { store := [], cache := [] }
    true 1 (List.replicate 40 0) 0 c10Req c10Res c10St (fun _ => rfl) rfl rfl
    rfl

end Encurtador
